import Mathlib

/-!
# Shallow embedding of the ai-crypto-agent portfolio simulation engine

This file embeds, in Lean 4, the parts of the repository that the portfolio
invariants talk about:

* `src/mock_trade_executor.py` — `compute_nav` (mark-to-market), the intra-period
  take-profit / stop-loss check loop, and the action-application loop of
  `apply_actions` (open_long / open_short / close_position / adjust_sl / hold);
* `src/DeepSeek_Agent.py` — `validate_decision` (the "Decision Risk Gate");
* `src/evaluate_multi_coin.py` — `print_stats` (Sharpe fallback);
* `src/regime_backtest.py` — the win-rate computation of `run_backtest`.

Modelling conventions:

* Python floats are idealised as exact rationals (`ℚ`).  Python's `round(x, 2)`
  (round to nearest, ties to even, on binary floats) is modelled by `round2`
  below, rounding to the nearest multiple of 1/100; every concrete value used
  in a proof is far from a tie, so the tie-breaking rule is immaterial.
* Python `dict` price maps are association lists with `List.lookup`.
* A Python local variable that may be read before its first assignment
  (`entry_price` in the TP/SL loop of `apply_actions`) is threaded explicitly
  as an `Option ℚ`; reading it while it is `none` is Python's
  `UnboundLocalError`, modelled with `Except`.
* Wall-clock timestamps (`last_update`, `opened_at`, `time`) are outside the
  model: they do not enter any computed quantity.
-/

namespace CryptoAgent

/-- `round(x, 2)`: round to the nearest multiple of 1/100.
(Python rounds ties to even; `round` on `ℚ` rounds ties up. No value in this
file is ever within 1/200 of a tie, so the two agree everywhere we evaluate.) -/
def round2 (q : ℚ) : ℚ := (round (100 * q) : ℤ) / 100

/-- One entry of the market map built by `get_market_data_map`:
`{"close": …, "high": …, "low": …}` (high/low already defaulted to close
when absent, as `get_market_data_map` does). -/
structure MarketData where
  close : ℚ
  high : ℚ
  low : ℚ
  deriving DecidableEq, Repr

/-- The price map: Python dict `symbol -> {"close", "high", "low"}`. -/
abbrev MarketMap := List (String × MarketData)

/-- `exit_plan` dict: optional take-profit and stop-loss prices.
`none` models an absent key / `None` value. -/
structure ExitPlan where
  take_profit : Option ℚ := none
  stop_loss : Option ℚ := none
  deriving DecidableEq, Repr

/-- One element of `portfolio["positions"]` (see `apply_actions`'s open branch
for the full field set written by the executor). -/
structure Position where
  symbol : String
  side : String              -- "long" or "short"
  quantity : ℚ               -- signed: negative for shorts
  entry_price : ℚ
  leverage : ℚ
  margin : ℚ
  notional : ℚ
  current_price : ℚ
  unrealized_pnl : ℚ
  exit_plan : ExitPlan
  deriving DecidableEq, Repr

/-- `portfolio_state.json` state (minus the wall-clock `last_update`). -/
structure Portfolio where
  nav : ℚ
  cash : ℚ
  positions : List Position
  deriving DecidableEq, Repr

/-- `FEE_RATE = 0.001` — the 0.1% taker fee of `mock_trade_executor.py`. -/
def FEE_RATE : ℚ := 1 / 1000

/-- The `market_map.get(symbol, {}); market_data.get("close", entry_price)`
fallback inside `compute_nav`: current price, or entry price when the symbol
is missing from the map. -/
def currentPriceOf (m : MarketMap) (pos : Position) : ℚ :=
  match m.lookup pos.symbol with
  | some md => md.close
  | none => pos.entry_price

/-- The per-position body of `compute_nav`'s loop: set `current_price`, set
`unrealized_pnl = round(pnl, 2)` with `pnl = (current_price - entry_price) * qty`. -/
def markPosition (m : MarketMap) (pos : Position) : Position :=
  let cp := currentPriceOf m pos
  { pos with
      current_price := cp
      unrealized_pnl := round2 ((cp - pos.entry_price) * pos.quantity) }

/-- `compute_nav`'s loop: walks the positions in order, threading the
`total_equity` accumulator (started at `cash`); the accumulator receives the
UNROUNDED `margin + pnl` of every position, while the position's stored
`unrealized_pnl` is rounded.  Returns the final accumulator and the updated
positions. -/
def computeNavLoop (m : MarketMap) : List Position → ℚ → ℚ × List Position
  | [], acc => (acc, [])
  | pos :: rest, acc =>
      let cp := currentPriceOf m pos
      let pnl := (cp - pos.entry_price) * pos.quantity
      let out := computeNavLoop m rest (acc + (pos.margin + pnl))
      (out.1, markPosition m pos :: out.2)

/-- `compute_nav(portfolio, market_map)`:
NAV = round(cash + Σ (margin + unrealized pnl), 2); cash is not touched. -/
def compute_nav (p : Portfolio) (m : MarketMap) : Portfolio :=
  let out := computeNavLoop m p.positions p.cash
  { nav := round2 out.1, cash := p.cash, positions := out.2 }

/-- The exact, unrounded equity contribution `margin + (price − entry) × qty`
of one position (the quantity `compute_nav`'s accumulator adds). -/
def positionEquity (m : MarketMap) (pos : Position) : ℚ :=
  pos.margin + (currentPriceOf m pos - pos.entry_price) * pos.quantity

/-! ## The intra-period take-profit / stop-loss check of `apply_actions` -/

/-- A Python runtime error escaping `apply_actions`. -/
inductive ExecError where
  | unboundLocal (name : String)
  deriving DecidableEq, Repr

/-- The `(triggered, exit_price, exit_reason)` triple computed for one
position by the TP/SL block of `apply_actions` (lines 202–233). -/
structure TriggerOutcome where
  triggered : Bool
  exit_price : ℚ
  exit_reason : String
  deriving DecidableEq, Repr

/-- One row appended to `trade_log.csv` (without the wall-clock `time` and
the always-`None` `nav_after` columns). `reason` is `""` except for
risk-triggered exits. -/
structure TradeRec where
  symbol : String
  action : String
  side : String
  qty : ℚ
  price : ℚ
  notional : ℚ
  margin : ℚ
  fee : ℚ
  realized_pnl : ℚ
  reason : String := ""
  deriving DecidableEq, Repr

/-- The `elif tp and high >= tp` arm for a long (Python truthiness: `tp`
must be non-`None` and non-zero). -/
def longTpCheck (pos : Position) (md : MarketData) : TriggerOutcome :=
  match pos.exit_plan.take_profit with
  | some t => if t ≠ 0 ∧ t ≤ md.high then ⟨true, t, "take_profit"⟩ else ⟨false, md.close, ""⟩
  | none => ⟨false, md.close, ""⟩

/-- The `elif tp and low <= tp` arm for a short. -/
def shortTpCheck (pos : Position) (md : MarketData) : TriggerOutcome :=
  match pos.exit_plan.take_profit with
  | some t => if t ≠ 0 ∧ md.low ≤ t then ⟨true, t, "take_profit"⟩ else ⟨false, md.close, ""⟩
  | none => ⟨false, md.close, ""⟩

/-- Lines 202–233 of `mock_trade_executor.py` for one position.

`entryPriceVar` is the current value of the Python local `entry_price`:
inside the stop-loss arms the code evaluates `sl > entry_price` (long) or
`sl < entry_price` (short) to label the exit `trailing_stop` vs `stop_loss`,
but `entry_price` is first assigned only later, at line 237 inside the
`if triggered:` block — so on the first breached stop of a cycle the local is
unbound (`none`) and Python raises `UnboundLocalError`. -/
def checkExitTrigger (entryPriceVar : Option ℚ) (pos : Position) (md : MarketData) :
    Except ExecError TriggerOutcome :=
  if pos.side = "long" then
    -- Check SL first (conservative)
    match pos.exit_plan.stop_loss with
    | some s =>
        if s ≠ 0 ∧ md.low ≤ s then
          match entryPriceVar with
          | some entry_price =>
              .ok ⟨true, s, if s > entry_price then "trailing_stop" else "stop_loss"⟩
          | none => .error (.unboundLocal "entry_price")
        else .ok (longTpCheck pos md)
    | none => .ok (longTpCheck pos md)
  else
    -- Short: check SL first (conservative)
    match pos.exit_plan.stop_loss with
    | some s =>
        if s ≠ 0 ∧ s ≤ md.high then
          match entryPriceVar with
          | some entry_price =>
              .ok ⟨true, s, if s < entry_price then "trailing_stop" else "stop_loss"⟩
          | none => .error (.unboundLocal "entry_price")
        else .ok (shortTpCheck pos md)
    | none => .ok (shortTpCheck pos md)

/-- The whole TP/SL loop (lines 187–273): walks the open positions in order,
keeping untriggered ones in `remaining_positions`, closing triggered ones
(`cash += margin + pnl - fee`, one trade record with the exit reason), and —
crucially — assigning the local `entry_price` (line 237) only inside the
triggered branch, so later iterations see the PREVIOUS triggered position's
entry price.  Any Python error aborts the loop (there is no try/except). -/
def checkExitsPhase (m : MarketMap) (entryPriceVar : Option ℚ) (cash : ℚ) :
    List Position → Except ExecError (ℚ × List Position × List TradeRec)
  | [] => .ok (cash, [], [])
  | pos :: rest =>
    match m.lookup pos.symbol with
    | none =>
        -- no market data: keep the position, continue
        match checkExitsPhase m entryPriceVar cash rest with
        | .error e => .error e
        | .ok (c, ps, rs) => .ok (c, pos :: ps, rs)
    | some md =>
        match checkExitTrigger entryPriceVar pos md with
        | .error e => .error e
        | .ok t =>
          if t.triggered then
            let qty := pos.quantity
            let pnl := (t.exit_price - pos.entry_price) * qty
            let notional_exit := |qty| * t.exit_price
            let fee := notional_exit * FEE_RATE
            let net_return := pos.margin + pnl - fee
            let rec0 : TradeRec :=
              { symbol := pos.symbol, action := "close_position", side := pos.side,
                qty := qty, price := t.exit_price, notional := notional_exit,
                margin := pos.margin, fee := fee, realized_pnl := pnl - fee,
                reason := t.exit_reason }
            match checkExitsPhase m (some pos.entry_price) (cash + net_return) rest with
            | .error e => .error e
            | .ok (c, ps, rs) => .ok (c, ps, rec0 :: rs)
          else
            match checkExitsPhase m entryPriceVar cash rest with
            | .error e => .error e
            | .ok (c, ps, rs) => .ok (c, pos :: ps, rs)

/-! ## The action-application loop of `apply_actions` (lines 280–412) -/

/-- One element of `decision["actions"]`.  `symbol = ""` / `action = ""`
model a missing or `None` field (Python falsiness); `leverage` and
`position_size_usd` carry the already-parsed defaults (`1.0`, `0.0`). -/
structure Action where
  symbol : String := ""
  action : String := ""
  leverage : ℚ := 1
  position_size_usd : ℚ := 0
  exit_plan : ExitPlan := {}
  deriving DecidableEq, Repr

/-- The mutable state of the action loop: `portfolio["cash"]`, the local
`positions` list, and the trade records appended so far. -/
structure ExecState where
  cash : ℚ
  positions : List Position
  recs : List TradeRec
  deriving DecidableEq, Repr

/-- `pos.setdefault("exit_plan", {}).update(exit_plan or {})`: keys present
in the new dict overwrite, absent keys keep the old value. -/
def updateExitPlan (old new : ExitPlan) : ExitPlan :=
  { take_profit := match new.take_profit with | some t => some t | none => old.take_profit
    stop_loss := match new.stop_loss with | some s => some s | none => old.stop_loss }

/-- `net_return = margin + pnl - fee` credited back to cash when a position
is closed at `current_price`, with `pnl = (current_price - entry) * qty` and
`fee = |qty| * current_price * FEE_RATE`. -/
def closeNetReturn (current_price : ℚ) (pos : Position) : ℚ :=
  pos.margin + (current_price - pos.entry_price) * pos.quantity
    - |pos.quantity| * current_price * FEE_RATE

/-- The trade record the `close_position` branch appends for one closed
position. -/
def closeTradeRec (symbol : String) (current_price : ℚ) (pos : Position) : TradeRec :=
  { symbol := symbol, action := "close_position", side := pos.side,
    qty := pos.quantity, price := current_price,
    notional := |pos.quantity| * current_price, margin := pos.margin,
    fee := |pos.quantity| * current_price * FEE_RATE,
    realized_pnl := (current_price - pos.entry_price) * pos.quantity
      - |pos.quantity| * current_price * FEE_RATE }

/-- The `close_position` branch (lines 356–395): walk the positions,
keep non-matching ones, and for EVERY position whose symbol matches, credit
`margin + pnl - fee` back to cash and append a trade record. -/
def closePositionLoop (symbol : String) (current_price : ℚ) :
    ℚ → List Position → ℚ × List Position × List TradeRec
  | cash, [] => (cash, [], [])
  | cash, pos :: rest =>
    if pos.symbol ≠ symbol then
      let out := closePositionLoop symbol current_price cash rest
      (out.1, pos :: out.2.1, out.2.2)
    else
      let out := closePositionLoop symbol current_price
        (cash + closeNetReturn current_price pos) rest
      (out.1, out.2.1, closeTradeRec symbol current_price pos :: out.2.2)

/-- The fee of an open: `fee = notional * FEE_RATE` with
`notional = size_usd * leverage`. -/
def openFee (act : Action) : ℚ := act.position_size_usd * act.leverage * FEE_RATE

/-- The cash deducted on an open: `cost = size_usd + fee`. -/
def openCost (act : Action) : ℚ := act.position_size_usd + openFee act

/-- The position record appended by the open branch (lines 322–335). -/
def openedPosition (act : Action) (current_price : ℚ) : Position :=
  let notional := act.position_size_usd * act.leverage
  let side := if act.action = "open_long" then "long" else "short"
  let qty0 := notional / current_price
  { symbol := act.symbol, side := side,
    quantity := if side = "short" then -qty0 else qty0,
    entry_price := current_price, leverage := act.leverage,
    margin := act.position_size_usd, notional := notional,
    current_price := current_price,
    unrealized_pnl := -(openFee act),   -- "Start with loss due to fee"
    exit_plan := act.exit_plan }

/-- The trade record appended by the open branch (lines 337–350). -/
def openTradeRec (act : Action) (current_price : ℚ) : TradeRec :=
  let notional := act.position_size_usd * act.leverage
  let side := if act.action = "open_long" then "long" else "short"
  let qty0 := notional / current_price
  { symbol := act.symbol, action := act.action, side := side,
    qty := if side = "short" then -qty0 else qty0,
    price := current_price, notional := notional, margin := act.position_size_usd,
    fee := openFee act, realized_pnl := -(openFee act) }

/-- One iteration of the action loop (lines 280–412).  An action with a
missing symbol/type, a symbol without a market price, a non-positive size, or
a cost exceeding cash is skipped (the loop `continue`s); otherwise the branch
for its `action` field runs.  Unknown action kinds (e.g. `hold`) do nothing. -/
def applyOneAction (m : MarketMap) (st : ExecState) (act : Action) : ExecState :=
  if act.symbol = "" ∨ act.action = "" then st
  else
    match m.lookup act.symbol with
    | none => st      -- "No price for {symbol}, skipping."
    | some md =>
      let current_price := md.close
      if act.action = "open_long" ∨ act.action = "open_short" then
        if act.position_size_usd ≤ 0 then st  -- "Invalid size"
        else if st.cash < openCost act then st  -- "Insufficient cash"
        else
          { cash := st.cash - openCost act,
            positions := st.positions ++ [openedPosition act current_price],
            recs := st.recs ++ [openTradeRec act current_price] }
      else if act.action = "close_position" then
        let out := closePositionLoop act.symbol current_price st.cash st.positions
        { cash := out.1, positions := out.2.1, recs := st.recs ++ out.2.2 }
      else if act.action = "adjust_sl" then
        { st with positions := st.positions.map fun pos =>
            if pos.symbol = act.symbol then
              { pos with exit_plan := updateExitPlan pos.exit_plan act.exit_plan }
            else pos }
      else st   -- hold / anything else: "(No execution needed)"

/-- The full action loop: every action of the decision is applied, in order.
Nothing upstream filters the list. -/
def applyActionList (m : MarketMap) (st : ExecState) (actions : List Action) : ExecState :=
  actions.foldl (applyOneAction m) st

/-! ## The Decision Risk Gate: `validate_decision` of `DeepSeek_Agent.py`

Its docstring reads: "Sanity check for agent decisions.  Prints warnings
instead of raising errors for now."  The function returns `None`; its entire
observable output is the printed warnings, modelled here as a `List Warning`.
It never raises and never removes an action from the decision. -/

/-- The warnings `validate_decision` can print. -/
inductive Warning where
  | noActions
  | invalidAction (i : Nat) (symbol : String)
  | negativeSize (i : Nat) (symbol : String)
  | leverageTooHigh (i : Nat) (symbol : String)
  | totalRiskExceeds (total nav : ℚ)
  deriving DecidableEq, Repr

def ALLOWED_ACTIONS : List String :=
  ["open_long", "open_short", "close_position", "adjust_sl", "hold"]

/-- The `for i, act in enumerate(actions)` loop of `validate_decision`:
collects per-action warnings and accumulates `total_new_risk`
(`+= size` for every `open_long` / `open_short`). -/
def validateLoop : Nat → List Action → List Warning × ℚ
  | _, [] => ([], 0)
  | i, act :: rest =>
    let symbol := if act.symbol = "" then "UNKNOWN" else act.symbol
    let w1 := if act.action ∈ ALLOWED_ACTIONS then [] else [Warning.invalidAction (i+1) symbol]
    let w2 := if act.position_size_usd < 0 then [Warning.negativeSize (i+1) symbol] else []
    let w3 := if act.leverage > 3 then [Warning.leverageTooHigh (i+1) symbol] else []
    let risk := if act.action = "open_long" ∨ act.action = "open_short"
                then act.position_size_usd else 0
    let out := validateLoop (i+1) rest
    (w1 ++ w2 ++ w3 ++ out.1, risk + out.2)

/-- `validate_decision(decision)`: the printed warnings.  The 50%-of-NAV
check (`total_new_risk > nav * 0.5`) yields a warning, nothing more. -/
def validate_decision (nav : ℚ) (actions : List Action) : List Warning :=
  if actions = [] then [Warning.noActions]
  else
    let out := validateLoop 0 actions
    if out.2 > nav * (1/2) then out.1 ++ [Warning.totalRiskExceeds out.2 nav] else out.1

/-! ## Performance metrics: `print_stats` (evaluate_multi_coin.py) and the
win-rate block of `run_backtest` (regime_backtest.py) -/

/-- A numpy scalar as observed by the spec: NaN, an exact rational, or the
zero-variance-guarded Sharpe value `mean/std·√ann` (irrational in general),
recorded by its rational ingredients `(mean, variance, ann)`. -/
inductive NpFloat where
  | nan
  | num (q : ℚ)
  | ratioVal (mean variance ann : ℚ)
  deriving DecidableEq, Repr

/-- `np.mean` (NaN on an empty array). -/
def npMean (l : List ℚ) : Option ℚ :=
  if l = [] then none else some (l.sum / l.length)

/-- `np.std(l)^2` — the population variance (ddof = 0); NaN on empty input. -/
def npVariance (l : List ℚ) : Option ℚ :=
  match npMean l with
  | none => none
  | some mu => some ((l.map fun x => (x - mu) ^ 2).sum / l.length)

/-- The guard `np.std(returns) > 0`: true iff the variance is defined and
positive (a NaN comparison is `False` in Python/numpy). -/
def npStdPositive (l : List ℚ) : Bool :=
  match npVariance l with
  | none => false
  | some v => decide (0 < v)

/-- `print_stats`'s Sharpe:
`np.mean(returns) / np.std(returns) * np.sqrt(365/24*6) if np.std(returns) > 0 else 0`.
In the guarded branch mean and variance are defined, so the `getD 0`
defaults are never used. -/
def print_stats_sharpe (ann : ℚ) (returns : List ℚ) : NpFloat :=
  if npStdPositive returns then
    .ratioVal ((npMean returns).getD 0) ((npVariance returns).getD 0) ann
  else
    .num 0

/-- The win-rate block of `run_backtest` in `regime_backtest.py`:
`wins / len(trades_pnl)` when any trades exist, else the float `0.0`. -/
def run_backtest_win_rate (trades_pnl : List ℚ) : NpFloat :=
  if trades_pnl = [] then .num 0
  else .num (((trades_pnl.filter fun p => 0 < p).length : ℚ) / trades_pnl.length)

/-- The annualisation constant of `print_stats`: `365/24*6` (6 bars per day
at 4-hour granularity; Python evaluates left to right, `(365/24)*6 = 91.25`). -/
def SHARPE_ANN : ℚ := 365 / 24 * 6

/-! ## Concrete inputs used below to evaluate the embedding -/

/-- A plain long position: 1 unit of "A" bought at 100 with margin 100. -/
def samplePos : Position :=
  { symbol := "A", side := "long", quantity := 1, entry_price := 100, leverage := 1,
    margin := 100, notional := 100, current_price := 100, unrealized_pnl := 0,
    exit_plan := {} }

/-- Two positions whose individual marks (0.004 each) vanish under 2-decimal
rounding while their sum (0.008) does not. -/
def roundingPortfolio : Portfolio :=
  { nav := 0, cash := 0,
    positions := [{ samplePos with margin := 0 }, { samplePos with symbol := "B", margin := 0 }] }

/-- Prices 100.004 for both rounding-test symbols. -/
def roundingMarket : MarketMap :=
  [("A", ⟨100 + 4/1000, 100 + 4/1000, 100 + 4/1000⟩),
   ("B", ⟨100 + 4/1000, 100 + 4/1000, 100 + 4/1000⟩)]

/-- A long position carrying a stop-loss at 95 (entry 100). -/
def stopPos : Position := { samplePos with symbol := "BTC", exit_plan := { stop_loss := some 95 } }

/-- A bar for "BTC" whose low (90) breaches the stop at 95. -/
def stopMarket : MarketMap := [("BTC", ⟨92, 101, 90⟩)]

/-- A long position with stop 95 and take-profit 110 (entry 100). -/
def bothPos : Position :=
  { samplePos with
    symbol := "BTC"
    exit_plan := { take_profit := some 110, stop_loss := some 95 } }

/-- A bar breaching both levels: low 90 ≤ 95 and high 112 ≥ 110. -/
def bothBar : MarketData := ⟨93, 112, 90⟩

/-- A price map with a close for the four symbols the witnesses trade. -/
def fourMarket : MarketMap :=
  [("BTC", ⟨100, 101, 99⟩), ("ETH", ⟨50, 51, 49⟩), ("SOL", ⟨20, 21, 19⟩),
   ("DOGE", ⟨2, 3, 1⟩)]

/-- An `open_long BTC` for $6000 — 60% of a $10000 NAV. -/
def oversizedAct : Action :=
  { symbol := "BTC", action := "open_long", leverage := 1, position_size_usd := 6000 }

/-- An executor state already holding three open positions. -/
def threePosState : ExecState :=
  { cash := 10000,
    positions := [{ samplePos with symbol := "BTC" }, { samplePos with symbol := "ETH" },
                  { samplePos with symbol := "SOL" }],
    recs := [] }

/-- A proposed 4th position. -/
def fourthAct : Action :=
  { symbol := "DOGE", action := "open_long", leverage := 1, position_size_usd := 100 }

/-- A `close_position` action for "ETH". -/
def closeEthAct : Action := { symbol := "ETH", action := "close_position" }

/-- The trade record the TP/SL phase appends for a risk-triggered exit: the
close record at the exit price, with `reason` set to the exit reason. -/
def riskExitRec (pos : Position) (t : TriggerOutcome) : TradeRec :=
  { closeTradeRec pos.symbol t.exit_price pos with reason := t.exit_reason }

/-- A long position (entry 200, quantity 2, margin 50) with stop-loss 190. -/
def riskPos : Position :=
  { symbol := "ETH", side := "long", quantity := 2, entry_price := 200, leverage := 1,
    margin := 50, notional := 100, current_price := 200, unrealized_pnl := 0,
    exit_plan := { stop_loss := some 190 } }

/-- A bar for "ETH" breaching that stop: low 185 ≤ 190. -/
def riskMarket : MarketMap := [("ETH", ⟨188, 201, 185⟩)]

/-- A long position with only a take-profit at 110 (entry 100). -/
def tpPos : Position :=
  { samplePos with symbol := "BTC", exit_plan := { take_profit := some 110 } }

/-- A bar for "BTC" whose high 112 reaches the target 110. -/
def tpMarket : MarketMap := [("BTC", ⟨105, 112, 100⟩)]

/-- A `close_position` action for a symbol with no open position. -/
def closeAbsentAct : Action := { symbol := "DOGE", action := "close_position" }

/-! ## Lemmas about the mark-to-market loop -/

theorem markPosition_margin (m : MarketMap) (pos : Position) :
    (markPosition m pos).margin = pos.margin := rfl

theorem markPosition_current_price (m : MarketMap) (pos : Position) :
    (markPosition m pos).current_price = currentPriceOf m pos := rfl

theorem markPosition_unrealized (m : MarketMap) (pos : Position) :
    (markPosition m pos).unrealized_pnl =
      round2 ((currentPriceOf m pos - pos.entry_price) * pos.quantity) := rfl

/-- Marking does not change the fields the mark is computed from, so the
equity contribution of a marked position equals that of the original. -/
theorem positionEquity_markPosition (m : MarketMap) (pos : Position) :
    positionEquity m (markPosition m pos) = positionEquity m pos := by
  simp [positionEquity, markPosition, currentPriceOf]

/-- The accumulator of `compute_nav`'s loop: initial value plus the sum of
the exact (unrounded) per-position equities. -/
theorem computeNavLoop_fst (m : MarketMap) (l : List Position) :
    ∀ acc : ℚ, (computeNavLoop m l acc).1 = acc + (l.map (positionEquity m)).sum := by
  induction l with
  | nil => intro acc; simp [computeNavLoop]
  | cons pos rest ih =>
      intro acc
      simp only [computeNavLoop, List.map_cons, List.sum_cons, ih]
      rw [positionEquity]
      ring

/-- The positions written back by `compute_nav`'s loop are exactly the
marked originals, in order. -/
theorem computeNavLoop_snd (m : MarketMap) (l : List Position) :
    ∀ acc : ℚ, (computeNavLoop m l acc).2 = l.map (markPosition m) := by
  induction l with
  | nil => intro acc; simp [computeNavLoop]
  | cons pos rest ih => intro acc; simp only [computeNavLoop, List.map_cons, ih]

theorem compute_nav_cash (p : Portfolio) (m : MarketMap) :
    (compute_nav p m).cash = p.cash := rfl

theorem compute_nav_positions (p : Portfolio) (m : MarketMap) :
    (compute_nav p m).positions = p.positions.map (markPosition m) := by
  simp only [compute_nav, computeNavLoop_snd]

theorem compute_nav_nav (p : Portfolio) (m : MarketMap) :
    (compute_nav p m).nav = round2 (p.cash + (p.positions.map (positionEquity m)).sum) := by
  simp only [compute_nav, computeNavLoop_fst]

/-! ## C1 -/

/-- C1 (amended): after `compute_nav`, `nav` is the 2-decimal ROUNDING of
cash plus the sum of the exact (unrounded) `margin + (price − entry) × qty`
over open positions, and each stored `unrealized_pnl` is separately rounded
to 2 decimals — so the claimed exact identity holds only up to rounding. -/
theorem C1_nav_is_rounded_equity_sum (p : Portfolio) (m : MarketMap) :
    (compute_nav p m).nav = round2 (p.cash + (p.positions.map (positionEquity m)).sum) ∧
    (compute_nav p m).positions.map Position.unrealized_pnl =
      p.positions.map fun pos =>
        round2 ((currentPriceOf m pos - pos.entry_price) * pos.quantity) := by
  refine ⟨compute_nav_nav p m, ?_⟩
  rw [compute_nav_positions, List.map_map]
  rfl

/-- C1 (counterexample): with cash 0 and two positions each marking an exact
P&L of 0.004 at price 100.004, `compute_nav` stores `unrealized_pnl = 0.00`
for both (0.004 rounds to 0) but `nav = 0.01` (0.008 rounds to 0.01): the NAV
equals neither cash + Σ(margin + stored unrealized P&L) = 0 nor
cash + Σ(margin + exact P&L) = 0.008, refuting the claimed exact equality. -/
theorem C1_counterexample :
    ((compute_nav roundingPortfolio roundingMarket).nav ≠
      (compute_nav roundingPortfolio roundingMarket).cash +
        ((compute_nav roundingPortfolio roundingMarket).positions.map
          fun q => q.margin + q.unrealized_pnl).sum) ∧
    (compute_nav roundingPortfolio roundingMarket).nav ≠
      roundingPortfolio.cash +
        (roundingPortfolio.positions.map (positionEquity roundingMarket)).sum := by
  have cA : currentPriceOf roundingMarket { samplePos with margin := 0 } = 100 + 4/1000 := rfl
  have cB : currentPriceOf roundingMarket { samplePos with symbol := "B", margin := 0 } =
      100 + 4/1000 := rfl
  have h : (compute_nav roundingPortfolio roundingMarket).nav = 1/100 := by
    rw [compute_nav_nav]
    simp only [roundingPortfolio, List.map_cons, List.map_nil, List.sum_cons, List.sum_nil,
      positionEquity, cA, cB]
    norm_num [samplePos, round2, round_eq]
  constructor
  · rw [h, compute_nav_cash, compute_nav_positions]
    simp only [roundingPortfolio, List.map_cons, List.map_nil, List.sum_cons, List.sum_nil,
      markPosition_margin, markPosition_unrealized, cA, cB]
    norm_num [samplePos, round2, round_eq]
  · rw [h]
    simp only [roundingPortfolio, List.map_cons, List.map_nil, List.sum_cons, List.sum_nil,
      positionEquity, cA, cB]
    norm_num [samplePos]

/-! ## C2 -/

/-- C2 (confirmed): `compute_nav` is idempotent — a second call with the same
price map produces the same NAV, and neither call changes cash or any
position's margin. -/
theorem C2_compute_nav_idempotent (p : Portfolio) (m : MarketMap) :
    (compute_nav (compute_nav p m) m).nav = (compute_nav p m).nav ∧
    (compute_nav p m).cash = p.cash ∧
    (compute_nav (compute_nav p m) m).cash = p.cash ∧
    (compute_nav p m).positions.map Position.margin = p.positions.map Position.margin ∧
    (compute_nav (compute_nav p m) m).positions.map Position.margin =
      p.positions.map Position.margin := by
  have hmark : ∀ l : List Position,
      (l.map (markPosition m)).map (positionEquity m) = l.map (positionEquity m) := by
    intro l
    rw [List.map_map]
    exact List.map_congr_left fun pos _ => positionEquity_markPosition m pos
  have hmarg : ∀ l : List Position,
      (l.map (markPosition m)).map Position.margin = l.map Position.margin := by
    intro l
    rw [List.map_map]
    exact List.map_congr_left fun pos _ => markPosition_margin m pos
  refine ⟨?_, rfl, rfl, ?_, ?_⟩
  · rw [compute_nav_nav, compute_nav_nav, compute_nav_cash, compute_nav_positions, hmark]
  · rw [compute_nav_positions]; exact hmarg _
  · rw [compute_nav_positions, compute_nav_positions, hmarg, hmarg]

/-! ## C9 -/

/-- C9 (confirmed): marking never fails; a position whose symbol is missing
from the price map falls back to its entry price (zero unrealized P&L), and
a position whose symbol is present is marked at that symbol's close. -/
theorem C9_missing_price_falls_back (p : Portfolio) (m : MarketMap) :
    (compute_nav p m).positions = p.positions.map (markPosition m) ∧
    (∀ pos : Position, m.lookup pos.symbol = none →
      (markPosition m pos).current_price = pos.entry_price ∧
      (markPosition m pos).unrealized_pnl = 0) ∧
    (∀ (pos : Position) (md : MarketData), m.lookup pos.symbol = some md →
      (markPosition m pos).current_price = md.close) := by
  refine ⟨compute_nav_positions p m, fun pos h => ⟨?_, ?_⟩, fun pos md h => ?_⟩
  · rw [markPosition_current_price, currentPriceOf, h]
  · rw [markPosition_unrealized, currentPriceOf, h]
    simp [round2]
  · rw [markPosition_current_price, currentPriceOf, h]

/-- Witness for C9 at a concrete input: symbol "A" is absent from
`fourMarket` (fallback, zero P&L), symbol "ETH" is present (marked at its
close 50). -/
theorem C9_witness :
    (compute_nav { nav := 0, cash := 0, positions := [samplePos] } fourMarket).positions =
      [samplePos].map (markPosition fourMarket) ∧
    (markPosition fourMarket samplePos).current_price = samplePos.entry_price ∧
    (markPosition fourMarket samplePos).unrealized_pnl = 0 ∧
    (markPosition fourMarket { samplePos with symbol := "ETH" }).current_price = 50 :=
  ⟨(C9_missing_price_falls_back { nav := 0, cash := 0, positions := [samplePos] } fourMarket).1,
   ((C9_missing_price_falls_back { nav := 0, cash := 0, positions := [samplePos] }
      fourMarket).2.1 samplePos rfl).1,
   ((C9_missing_price_falls_back { nav := 0, cash := 0, positions := [samplePos] }
      fourMarket).2.1 samplePos rfl).2,
   (C9_missing_price_falls_back { nav := 0, cash := 0, positions := [samplePos] }
      fourMarket).2.2 { samplePos with symbol := "ETH" } ⟨50, 51, 49⟩ rfl⟩

/-! ## C4 -/

/-- C4 (code bug): the very first position of a cycle whose stop is breached
makes the TP/SL loop abort with `UnboundLocalError`: the trailing-stop
labeling `sl > entry_price` (line 212) reads the local `entry_price`, which
is first assigned only at line 237 inside the `if triggered:` block.  Here: a
single long position (entry 100, stop 95) and a bar with low 90; the whole
cycle dies instead of the claimed "every position is processed, no exception
escapes". -/
theorem C4_first_triggered_stop_raises :
    checkExitsPhase stopMarket none 1000 [stopPos] =
      .error (.unboundLocal "entry_price") := rfl

/-! ## C6 -/

/-- C6 (code bug): a bar breaching BOTH the stop (low 90 ≤ 95) and the target
(high 112 ≥ 110) of a long position. The stop arm is indeed evaluated first,
but on the first triggered position of a cycle the `sl > entry_price` read
raises `UnboundLocalError` instead of closing at the stop price — while with
the local stale-bound (as after an earlier trigger) the position closes at the
stop 95 with reason `stop_loss`, never `take_profit`. -/
theorem C6_both_breached_first_position_raises :
    checkExitTrigger none bothPos bothBar = .error (.unboundLocal "entry_price") ∧
    checkExitTrigger (some 100) bothPos bothBar =
      .ok { triggered := true, exit_price := 95, exit_reason := "stop_loss" } :=
  ⟨rfl, rfl⟩

/-! ## The close_position branch -/

/-- What the `close_position` loop does, in closed form: cash is credited the
net return of every matching position, exactly the non-matching positions
remain (in order), and one trade record is appended per matching position. -/
theorem closePositionLoop_spec (s : String) (cp : ℚ) (l : List Position) :
    ∀ cash : ℚ,
      (closePositionLoop s cp cash l).1 =
        cash + ((l.filter fun q => q.symbol == s).map (closeNetReturn cp)).sum ∧
      (closePositionLoop s cp cash l).2.1 = (l.filter fun q => !(q.symbol == s)) ∧
      (closePositionLoop s cp cash l).2.2 =
        (l.filter fun q => q.symbol == s).map (closeTradeRec s cp) := by
  induction l with
  | nil => intro cash; simp [closePositionLoop]
  | cons pos rest ih =>
      intro cash
      by_cases h : pos.symbol = s
      · have hp : (pos.symbol == s) = true := by simp [h]
        have h1 := (ih (cash + closeNetReturn cp pos)).1
        have h2 := (ih (cash + closeNetReturn cp pos)).2.1
        have h3 := (ih (cash + closeNetReturn cp pos)).2.2
        simp only [closePositionLoop]
        rw [if_neg (not_not_intro h)]
        refine ⟨?_, ?_, ?_⟩
        · dsimp only
          rw [h1]
          simp only [List.filter, hp, List.map_cons, List.sum_cons]
          ring
        · dsimp only
          rw [h2]
          simp only [List.filter, hp, Bool.not_true]
        · dsimp only
          rw [h3]
          simp only [List.filter, hp, List.map_cons]
      · have hn : (pos.symbol == s) = false := by simp [h]
        have h1 := (ih cash).1
        have h2 := (ih cash).2.1
        have h3 := (ih cash).2.2
        simp only [closePositionLoop]
        rw [if_pos h]
        refine ⟨?_, ?_, ?_⟩
        · dsimp only
          rw [h1]
          simp only [List.filter, hn]
        · dsimp only
          rw [h2]
          simp only [List.filter, hn, Bool.not_false]
        · dsimp only
          rw [h3]
          simp only [List.filter, hn]

/-! ## C7 -/

/-- C7 (counterexample): a risk-triggered exit is also an "executing a
close" in the claim, and it does NOT always change cash by
`margin + realized_pnl − fee` and remove the position: for the first
stop-triggered position of a cycle (here: long, quantity 2 > 0, entry 200,
stop 190, bar low 185) the TP/SL loop aborts with `UnboundLocalError` — the
model returns an error and no updated portfolio state at all, so no cash
change and no removal happen. -/
theorem C7_counterexample :
    0 < riskPos.quantity ∧
    checkExitsPhase riskMarket none 1000 [riskPos] =
      .error (.unboundLocal "entry_price") :=
  ⟨by norm_num [riskPos], rfl⟩

/-- C7 (amended): both close paths apply the claimed cash formula whenever
they execute.  (a) A `close_position` action on the single position carrying
its symbol changes cash by exactly `margin + (close − entry) × qty −
|qty| × close × FEE_RATE`, removes that position (keeping all others in
order) and appends one trade record.  (b) A risk-triggered exit applies the
same formula at the stop/target exit price and removes the position, WHENEVER
the trigger evaluation completes — i.e. for take-profit triggers, or for
stop triggers once the cycle's `entry_price` local is bound by an earlier
trigger; on a cycle's first stop trigger it instead raises (the C4 slip). -/
theorem C7_close_paths_cash_delta (m : MarketMap) (st : ExecState) (act : Action)
    (md : MarketData) (pos : Position)
    (ha : act.action = "close_position") (hs : act.symbol ≠ "")
    (hm : m.lookup act.symbol = some md) (hq : 0 < pos.quantity)
    (hone : (st.positions.filter fun q => q.symbol == act.symbol) = [pos])
    (m2 : MarketMap) (env : Option ℚ) (cash2 : ℚ) (pos2 : Position)
    (md2 : MarketData) (t : TriggerOutcome)
    (hm2 : m2.lookup pos2.symbol = some md2)
    (ht : checkExitTrigger env pos2 md2 = .ok t) (htr : t.triggered = true)
    (hq2 : 0 < pos2.quantity) :
    ((applyOneAction m st act).cash =
      st.cash + (pos.margin + (md.close - pos.entry_price) * pos.quantity
        - |pos.quantity| * md.close * FEE_RATE) ∧
    (applyOneAction m st act).positions =
      (st.positions.filter fun q => !(q.symbol == act.symbol)) ∧
    (applyOneAction m st act).recs =
      st.recs ++ [closeTradeRec act.symbol md.close pos]) ∧
    checkExitsPhase m2 env cash2 [pos2] =
      .ok (cash2 + (pos2.margin + (t.exit_price - pos2.entry_price) * pos2.quantity
            - |pos2.quantity| * t.exit_price * FEE_RATE),
           [], [riskExitRec pos2 t]) := by
  constructor
  · have hno : ¬ (act.symbol = "" ∨ act.action = "") := by
      rintro (h | h)
      · exact hs h
      · rw [ha] at h; exact absurd h (by decide)
    have hopen : ¬ (act.action = "open_long" ∨ act.action = "open_short") := by
      rintro (h | h) <;> rw [ha] at h <;> exact absurd h (by decide)
    have hspec := closePositionLoop_spec act.symbol md.close st.positions st.cash
    refine ⟨?_, ?_, ?_⟩ <;>
      simp only [applyOneAction, if_neg hno, hm, if_neg hopen, if_pos ha, hspec.1, hspec.2.1,
        hspec.2.2, hone, List.map_cons, List.map_nil, List.sum_cons, List.sum_nil]
    rw [closeNetReturn]
    ring
  · simp only [checkExitsPhase, hm2, ht, htr, if_true, riskExitRec, closeTradeRec]

/-- Witness for C7 (amended): (a) closing the "ETH" position of a
three-position portfolio at close 50; (b) a take-profit exit at 110 on the
FIRST triggered position of a cycle (the `entry_price` local still unbound),
which completes because the take-profit arm never reads that local. -/
theorem C7_amended_witness :
    ((applyOneAction fourMarket threePosState closeEthAct).cash =
      threePosState.cash + closeNetReturn 50 { samplePos with symbol := "ETH" } ∧
    (applyOneAction fourMarket threePosState closeEthAct).positions =
      (threePosState.positions.filter fun q => !(q.symbol == "ETH")) ∧
    (applyOneAction fourMarket threePosState closeEthAct).recs =
      [] ++ [closeTradeRec "ETH" 50 { samplePos with symbol := "ETH" }]) ∧
    checkExitsPhase tpMarket none 1000 [tpPos] =
      .ok (1000 + closeNetReturn 110 tpPos, [],
           [riskExitRec tpPos { triggered := true, exit_price := 110,
                                exit_reason := "take_profit" }]) :=
  C7_close_paths_cash_delta fourMarket threePosState closeEthAct
    ⟨50, 51, 49⟩ { samplePos with symbol := "ETH" } rfl (by decide) rfl
    (by norm_num [samplePos]) rfl
    tpMarket none 1000 tpPos ⟨105, 112, 100⟩
    { triggered := true, exit_price := 110, exit_reason := "take_profit" }
    rfl rfl rfl (by norm_num [tpPos, samplePos])

/-! ## C10 -/

/-- C10 (confirmed): a `close_position` action for a symbol with no open
position leaves the state untouched — cash, positions and the trade log are
unchanged, no error is raised — and the remaining actions are processed as if
it were not there. -/
theorem C10_close_absent_noop (m : MarketMap) (st : ExecState) (act : Action)
    (rest : List Action)
    (ha : act.action = "close_position")
    (hnone : ∀ pos ∈ st.positions, pos.symbol ≠ act.symbol) :
    applyOneAction m st act = st ∧
    applyActionList m st (act :: rest) = applyActionList m st rest := by
  have hfirst : applyOneAction m st act = st := by
    by_cases hno : act.symbol = "" ∨ act.action = ""
    · simp only [applyOneAction, if_pos hno]
    · cases hlk : m.lookup act.symbol with
      | none => simp only [applyOneAction, if_neg hno, hlk]
      | some md =>
          have hopen : ¬ (act.action = "open_long" ∨ act.action = "open_short") := by
            rintro (h | h) <;> rw [ha] at h <;> exact absurd h (by decide)
          have hspec := closePositionLoop_spec act.symbol md.close st.positions st.cash
          have hfe : (st.positions.filter fun q => q.symbol == act.symbol) = [] := by
            rw [List.filter_eq_nil_iff]
            intro q hq
            simpa using hnone q hq
          have hfs : (st.positions.filter fun q => !(q.symbol == act.symbol)) =
              st.positions := by
            rw [List.filter_eq_self]
            intro q hq
            simpa using hnone q hq
          simp only [applyOneAction, if_neg hno, hlk, if_neg hopen, if_pos ha,
            hspec.1, hspec.2.1, hspec.2.2, hfe, hfs, List.map_nil, List.sum_nil,
            List.append_nil, add_zero]
  exact ⟨hfirst, by simp only [applyActionList, List.foldl_cons, hfirst]⟩

/-- Witness for C10: closing "DOGE" in a portfolio holding BTC/ETH/SOL only,
with one further action pending. -/
theorem C10_witness :
    applyOneAction fourMarket threePosState closeAbsentAct = threePosState ∧
    applyActionList fourMarket threePosState (closeAbsentAct :: [fourthAct]) =
      applyActionList fourMarket threePosState [fourthAct] :=
  C10_close_absent_noop fourMarket threePosState closeAbsentAct [fourthAct] rfl (by decide)

/-! ## C3 -/

/-- C3 (counterexample): a batch proposing a single `open_long` of $6000 —
60% of the $10000 NAV — makes `validate_decision` print exactly one warning
(nothing is rejected), and the executor opens the position anyway; likewise a
4th position is opened on a portfolio already holding three, since no check
on the number of open positions exists anywhere. -/
theorem C3_counterexample :
    validate_decision 10000 [oversizedAct] = [Warning.totalRiskExceeds 6000 10000] ∧
    (applyActionList fourMarket { cash := 10000, positions := [], recs := [] }
      [oversizedAct]).positions.length = 1 ∧
    (applyActionList fourMarket threePosState [fourthAct]).positions.length = 4 := by
  have hloop : validateLoop 0 [oversizedAct] = ([], 6000) := by
    norm_num [validateLoop, oversizedAct, ALLOWED_ACTIONS]
  refine ⟨?_, ?_, ?_⟩
  · simp only [validate_decision, hloop]
    norm_num
  · norm_num [applyActionList, applyOneAction, oversizedAct, fourMarket, List.lookup,
      openCost, openFee, FEE_RATE]
    decide
  · norm_num [applyActionList, applyOneAction, fourthAct, fourMarket, threePosState,
      samplePos, List.lookup, openCost, openFee, FEE_RATE]
    decide

/-- C3 (amended): the Decision Risk Gate only PRINTS a warning when the
proposed new-position sizes exceed 50% of NAV — the batch is not filtered —
and the executor then opens any position whose size is positive, whose symbol
has a price, and whose cost fits in cash, regardless of the total or of how
many positions are already open (there is no position-count check at all). -/
theorem C3_risk_gate_warns_but_executes (nav : ℚ) (actions : List Action)
    (m : MarketMap) (st : ExecState) (act : Action) (md : MarketData)
    (hr : (validateLoop 0 actions).2 > nav * (1/2)) (hne : actions ≠ [])
    (ha : act.action = "open_long") (hs : act.symbol ≠ "")
    (hm : m.lookup act.symbol = some md) (hsz : ¬ act.position_size_usd ≤ 0)
    (hc : ¬ st.cash < openCost act) :
    Warning.totalRiskExceeds (validateLoop 0 actions).2 nav ∈
      validate_decision nav actions ∧
    (applyOneAction m st act).positions = st.positions ++ [openedPosition act md.close] ∧
    (openedPosition act md.close).symbol = act.symbol := by
  have hno : ¬ (act.symbol = "" ∨ act.action = "") := by
    rintro (hh | hh)
    · exact hs hh
    · rw [ha] at hh; exact absurd hh (by decide)
  refine ⟨?_, ?_, rfl⟩
  · simp only [validate_decision, if_neg hne]
    rw [if_pos hr]
    exact List.mem_append_right _ (List.mem_singleton.mpr rfl)
  · simp only [applyOneAction, if_neg hno, hm, if_pos (Or.inl ha), if_neg hsz, if_neg hc]

/-- Witness for C3 (amended) at the counterexample's input. -/
theorem C3_witness :
    Warning.totalRiskExceeds (validateLoop 0 [oversizedAct]).2 10000 ∈
      validate_decision 10000 [oversizedAct] ∧
    (applyOneAction fourMarket { cash := 10000, positions := [], recs := [] }
        oversizedAct).positions = [] ++ [openedPosition oversizedAct 100] ∧
    (openedPosition oversizedAct 100).symbol = oversizedAct.symbol :=
  C3_risk_gate_warns_but_executes 10000 [oversizedAct] fourMarket
    { cash := 10000, positions := [], recs := [] } oversizedAct ⟨100, 101, 99⟩
    (by norm_num [validateLoop, oversizedAct, ALLOWED_ACTIONS]) (by simp)
    rfl (by decide) rfl (by norm_num [oversizedAct])
    (by norm_num [openCost, openFee, oversizedAct, FEE_RATE])

/-! ## C5 -/

/-- C5 (counterexample): opening "BTC" while a "BTC" position is already open
leaves TWO open positions for the same instrument — the executor appends, it
does not scale the existing position. -/
theorem C5_counterexample :
    ((applyOneAction fourMarket
        { cash := 10000, positions := [{ samplePos with symbol := "BTC" }], recs := [] }
        oversizedAct).positions.filter fun q => q.symbol == "BTC").length = 2 := by
  norm_num [applyOneAction, oversizedAct, fourMarket, List.lookup,
    openCost, openFee, FEE_RATE]
  decide

/-- C5 (amended): an `open_long`/`open_short` for an instrument that already
has an open position APPENDS a second position for that instrument — the
pre-existing position is left in the list unchanged (no volume-weighted
entry-price update happens in the executor) and the number of open positions
carrying that symbol grows by one. -/
theorem C5_open_appends_second_position (m : MarketMap) (st : ExecState) (act : Action)
    (md : MarketData) (pos0 : Position)
    (hex : pos0 ∈ st.positions) (hsym : pos0.symbol = act.symbol)
    (ha : act.action = "open_long" ∨ act.action = "open_short")
    (hs : act.symbol ≠ "") (hm : m.lookup act.symbol = some md)
    (hsz : ¬ act.position_size_usd ≤ 0) (hc : ¬ st.cash < openCost act) :
    (applyOneAction m st act).positions = st.positions ++ [openedPosition act md.close] ∧
    pos0 ∈ (applyOneAction m st act).positions ∧
    ((applyOneAction m st act).positions.countP fun q => q.symbol == act.symbol) =
      (st.positions.countP fun q => q.symbol == act.symbol) + 1 := by
  have hno : ¬ (act.symbol = "" ∨ act.action = "") := by
    rintro (hh | hh)
    · exact hs hh
    · rcases ha with h | h <;> rw [hh] at h <;> exact absurd h (by decide)
  have hpos : (applyOneAction m st act).positions =
      st.positions ++ [openedPosition act md.close] := by
    simp only [applyOneAction, if_neg hno, hm, if_pos ha, if_neg hsz, if_neg hc]
  have hop : (openedPosition act md.close).symbol = act.symbol := rfl
  refine ⟨hpos, ?_, ?_⟩
  · rw [hpos]; exact List.mem_append_left _ hex
  · rw [hpos, List.countP_append, List.countP_cons, List.countP_nil, hop]
    simp

/-- Witness for C5 (amended): state with one "BTC" position, `open_long BTC`. -/
theorem C5_witness :
    (applyOneAction fourMarket
        { cash := 10000, positions := [{ samplePos with symbol := "BTC" }], recs := [] }
        oversizedAct).positions =
      [{ samplePos with symbol := "BTC" }] ++ [openedPosition oversizedAct 100] ∧
    { samplePos with symbol := "BTC" } ∈
      (applyOneAction fourMarket
        { cash := 10000, positions := [{ samplePos with symbol := "BTC" }], recs := [] }
        oversizedAct).positions ∧
    ((applyOneAction fourMarket
        { cash := 10000, positions := [{ samplePos with symbol := "BTC" }], recs := [] }
        oversizedAct).positions.countP fun q => q.symbol == "BTC") =
      ([{ samplePos with symbol := "BTC" }].countP fun q => q.symbol == "BTC") + 1 :=
  C5_open_appends_second_position fourMarket
    { cash := 10000, positions := [{ samplePos with symbol := "BTC" }], recs := [] }
    oversizedAct ⟨100, 101, 99⟩ { samplePos with symbol := "BTC" }
    (List.mem_singleton.mpr rfl) rfl (Or.inl rfl) (by decide) rfl
    (by norm_num [oversizedAct]) (by norm_num [openCost, openFee, oversizedAct, FEE_RATE])

/-! ## C8 -/

/-- C8 (counterexample): for the flat return series `[0, 0]` (zero
volatility) `print_stats` yields Sharpe = the NUMBER 0, not NaN, and for an
empty reconstructed-trade list `run_backtest` yields win rate = 0.0, not NaN
— refuting "every undefined metric is returned as NaN and never as 0". -/
theorem C8_counterexample :
    print_stats_sharpe SHARPE_ANN [0, 0] = .num 0 ∧
    print_stats_sharpe SHARPE_ANN [0, 0] ≠ .nan ∧
    run_backtest_win_rate [] = .num 0 ∧
    run_backtest_win_rate [] ≠ .nan := by
  have hm : npMean [0, 0] = some 0 := by
    rw [npMean, if_neg (by simp)]; norm_num
  have hv : npVariance [0, 0] = some 0 := by
    rw [npVariance, hm]; norm_num
  have hs : npStdPositive [0, 0] = false := by
    rw [npStdPositive, hv]; norm_num
  have h1 : print_stats_sharpe SHARPE_ANN [0, 0] = .num 0 := by
    rw [print_stats_sharpe, hs]; rfl
  exact ⟨h1, by rw [h1]; exact fun hh => NpFloat.noConfusion hh, rfl,
    fun hh => NpFloat.noConfusion hh⟩

/-- C8 (amended): whenever the `np.std(returns) > 0` guard fails (zero
volatility, or an empty/NaN series), `print_stats` returns Sharpe as the
number 0 — not NaN — and with zero reconstructed trades `run_backtest`
returns win rate 0.0 — not NaN: undefined metrics are silently coerced to 0. -/
theorem C8_undefined_metrics_are_zero (ann : ℚ) (l : List ℚ)
    (h : npStdPositive l = false) :
    print_stats_sharpe ann l = .num 0 ∧ print_stats_sharpe ann l ≠ .nan ∧
    run_backtest_win_rate [] = .num 0 ∧ run_backtest_win_rate [] ≠ .nan := by
  have h1 : print_stats_sharpe ann l = .num 0 := by
    rw [print_stats_sharpe, h]; rfl
  exact ⟨h1, by rw [h1]; exact fun hh => NpFloat.noConfusion hh, rfl,
    fun hh => NpFloat.noConfusion hh⟩

/-- Witness for C8 (amended) on the flat nonzero series `[5, 5]`. -/
theorem C8_witness :
    print_stats_sharpe SHARPE_ANN [5, 5] = .num 0 ∧
    print_stats_sharpe SHARPE_ANN [5, 5] ≠ .nan ∧
    run_backtest_win_rate [] = .num 0 ∧
    run_backtest_win_rate [] ≠ .nan :=
  C8_undefined_metrics_are_zero SHARPE_ANN [5, 5] (by
    have hm : npMean [5, 5] = some 5 := by rw [npMean, if_neg (by simp)]; norm_num
    have hv : npVariance [5, 5] = some 0 := by rw [npVariance, hm]; norm_num
    rw [npStdPositive, hv]; norm_num)

end CryptoAgent
